import Mathlib

/-!
Verification of the snake-game simulation core in `src/snake-game/src/main.rs`.

The Rust code is embedded shallowly:
* `usize`/`u32` values become `Nat` (no claim involves wrap-around, and
  `saturating_sub` on `usize` is exactly truncated `Nat` subtraction);
* the fixed array `[Position; MAX_SNAKE_LENGTH]` becomes a `List Position`
  (kept at length 100 by construction: every mutation is a `List.set`);
* the board `[[Cell; BOARD_WIDTH]; BOARD_HEIGHT]` is modelled as the function
  `Nat → Nat → Cell` that `update_board` rebuilds: the Rust function performs a
  sequence of writes (clear, walls, snake, food) and a later write shadows an
  earlier one, so reading the final array is: food first, then snake, then
  wall, then empty;
* array reads use `List.getD`; the separate `...accesses_in_bounds` predicates
  record which indices the Rust code would actually access, so that panics
  (out-of-bounds accesses) are captured even though the Lean functions are
  total.
-/

namespace Snake

/-- `const BOARD_WIDTH: usize = 20`. -/
def BOARD_WIDTH : Nat := 20

/-- `const BOARD_HEIGHT: usize = 15`. -/
def BOARD_HEIGHT : Nat := 15

/-- `const MAX_SNAKE_LENGTH: usize = 100`. -/
def MAX_SNAKE_LENGTH : Nat := 100

/-- `enum Cell { Empty, Wall, Snake, Food }`. -/
inductive Cell where
  | Empty
  | Wall
  | Snake
  | Food
deriving DecidableEq

/-- `struct Position { x: usize, y: usize }`. -/
structure Position where
  x : Nat
  y : Nat
deriving DecidableEq

/-- `enum Direction { Up, Down, Left, Right }`. -/
inductive Direction where
  | Up
  | Down
  | Left
  | Right
deriving DecidableEq

/-- `struct GameState`. -/
structure GameState where
  board : Nat → Nat → Cell
  snake_body : List Position
  snake_length : Nat
  snake_direction : Direction
  food_position : Position
  score : Nat
  game_over : Bool

/-- The board view rebuilt by `GameState::update_board`: the Rust code clears
every cell, then writes the border walls, then every occupied snake segment at
`board[pos.y][pos.x]`, then the food.  A later write shadows an earlier one, so
the resulting array, read back, is food first, then snake, then wall, then
empty. -/
def build_board (len : Nat) (body : List Position) (food : Position) :
    Nat → Nat → Cell := fun y x =>
  if food.y = y ∧ food.x = x then Cell.Food
  else if ((List.range len).any fun i => decide (body.getD i ⟨0, 0⟩ = ⟨x, y⟩)) then Cell.Snake
  else if y = 0 ∨ y = BOARD_HEIGHT - 1 ∨ x = 0 ∨ x = BOARD_WIDTH - 1 then Cell.Wall
  else Cell.Empty

/-- `GameState::update_board`. -/
def GameState.update_board (s : GameState) : GameState :=
  { s with board := build_board s.snake_length s.snake_body s.food_position }

/-- `GameState::new`: length-3 snake `[(10,7),(9,7),(8,7)]`, heading Right,
food `(15,7)`, score 0, not game over, board rebuilt. -/
def GameState.new : GameState :=
  GameState.update_board
    { board := fun _ _ => Cell.Empty
      snake_body :=
        (((List.replicate MAX_SNAKE_LENGTH (⟨0, 0⟩ : Position)).set 0 ⟨10, 7⟩).set 1
            ⟨9, 7⟩).set 2 ⟨8, 7⟩
      snake_length := 3
      snake_direction := Direction.Right
      food_position := ⟨15, 7⟩
      score := 0
      game_over := false }

/-- The head `self.snake_body[0]`. -/
def GameState.current_head (s : GameState) : Position :=
  s.snake_body.getD 0 ⟨0, 0⟩

/-- The `new_head` computed by `GameState::move_snake` from the current
direction.  Rust uses `saturating_sub(1)` on `usize`, which is exactly
truncated `Nat` subtraction. -/
def GameState.next_head (s : GameState) : Position :=
  match s.snake_direction with
  | Direction.Up => ⟨s.current_head.x, s.current_head.y - 1⟩
  | Direction.Down => ⟨s.current_head.x, s.current_head.y + 1⟩
  | Direction.Left => ⟨s.current_head.x - 1, s.current_head.y⟩
  | Direction.Right => ⟨s.current_head.x + 1, s.current_head.y⟩

/-- `GameState::check_collision`: wall ring (`x == 0 || x >= W-1 || y == 0 ||
y >= H-1`) or any occupied segment (`for i in 0..self.snake_length`). -/
def GameState.check_collision (s : GameState) (pos : Position) : Bool :=
  decide
      (pos.x = 0 ∨ BOARD_WIDTH - 1 ≤ pos.x ∨ pos.y = 0 ∨ BOARD_HEIGHT - 1 ≤ pos.y) ||
    ((List.range s.snake_length).any fun i => decide (pos = s.snake_body.getD i ⟨0, 0⟩))

/-- `GameState::place_new_food`: deterministic modular offset from the previous
food position, then one corrective nudge of `x` if the candidate coincides with
any occupied segment (the Rust loop `break`s after the first conflicting
index, and the nudge does not depend on that index). -/
def GameState.place_new_food (s : GameState) : GameState :=
  let f : Position :=
    ⟨(s.food_position.x + 3) % (BOARD_WIDTH - 2) + 1,
      (s.food_position.y + 2) % (BOARD_HEIGHT - 2) + 1⟩
  if ((List.range s.snake_length).any fun i => decide (f = s.snake_body.getD i ⟨0, 0⟩)) then
    { s with food_position := ⟨(f.x + 1) % (BOARD_WIDTH - 2) + 1, f.y⟩ }
  else
    { s with food_position := f }

/-- The shift loop `for i in (1..self.snake_length).rev() { body[i] = body[i-1] }`:
`shift_body b n` performs the writes for `i = n, n-1, ..., 1`; `move_snake`
calls it with `n = snake_length - 1`. -/
def shift_body : List Position → Nat → List Position
  | b, 0 => b
  | b, n + 1 => shift_body (b.set (n + 1) (b.getD n ⟨0, 0⟩)) n

/-- `GameState::move_snake` (one tick):  no-op when game over; compute the new
head; on collision set `game_over` and return; otherwise either feed (score
+10, length +1, relocate food, no shift) or shift the segments; write the new
head into segment 0; rebuild the board. -/
def GameState.move_snake (s : GameState) : GameState :=
  if s.game_over then s
  else
    let new_head := s.next_head
    if s.check_collision new_head then { s with game_over := true }
    else
      let s' :=
        if new_head = s.food_position then
          GameState.place_new_food
            { s with score := s.score + 10, snake_length := s.snake_length + 1 }
        else
          { s with snake_body := shift_body s.snake_body (s.snake_length - 1) }
      GameState.update_board { s' with snake_body := s'.snake_body.set 0 new_head }

/-- `GameState::change_direction`: ignore a request for the direction opposite
to the current heading, otherwise adopt it. -/
def GameState.change_direction (s : GameState) (new_direction : Direction) : GameState :=
  let opposite :=
    match s.snake_direction with
    | Direction.Up => Direction.Down
    | Direction.Down => Direction.Up
    | Direction.Left => Direction.Right
    | Direction.Right => Direction.Left
  if new_direction ≠ opposite then { s with snake_direction := new_direction } else s

/-- `GameState::reset`: length 3, heading Right, score 0, not game over, the
three starting segments rewritten in place (indices 3.. are left untouched),
food `(15,7)`, board rebuilt. -/
def GameState.reset (s : GameState) : GameState :=
  GameState.update_board
    { s with
      snake_length := 3
      snake_direction := Direction.Right
      score := 0
      game_over := false
      snake_body := ((s.snake_body.set 0 ⟨10, 7⟩).set 1 ⟨9, 7⟩).set 2 ⟨8, 7⟩
      food_position := ⟨15, 7⟩ }

/-- The byte dispatch of the input loop in `main`: `'w'`/`'a'`/`'s'`/`'d'`
assign `game.snake_direction` directly (119, 97, 115, 100 in ASCII), `'r'`
(114) calls `reset`, and every other byte (including `'q'`) leaves the state
unchanged. -/
def handle_input_byte (s : GameState) (b : Nat) : GameState :=
  if b = 119 then { s with snake_direction := Direction.Up }
  else if b = 97 then { s with snake_direction := Direction.Left }
  else if b = 115 then { s with snake_direction := Direction.Down }
  else if b = 100 then { s with snake_direction := Direction.Right }
  else if b = 114 then s.reset
  else s

/-- The digit-filling loop of `send_number`: `while num > 0` write
`num % 10 + b'0'` into the next slot of the 10-byte buffer.  One unit of fuel
per buffer slot: when all 10 slots are used and digits remain, the Rust write
`digits[10]` would panic, modelled as `none`.  The returned list holds the
filled slots in order of writing (least-significant digit first). -/
def fill_digits : Nat → Nat → List Nat → Option (List Nat)
  | _, 0, digits => some digits
  | 0, _ + 1, _ => none
  | fuel + 1, n + 1, digits =>
    fill_digits fuel ((n + 1) / 10) (digits ++ [(n + 1) % 10 + 48])

/-- `send_number`: zero is sent as the single byte `b'0'` (48); otherwise the
buffer is filled least-significant-first and emitted in reverse order
(most-significant first). -/
def send_number (num : Nat) : Option (List Nat) :=
  if num = 0 then some [48]
  else (fill_digits 10 num []).map List.reverse

/-- States reachable from `GameState::new` by ticks (`move_snake`), validated
direction changes (`change_direction`) and `reset`. -/
inductive Reach : GameState → Prop
  | init : Reach GameState.new
  | tick {s : GameState} : Reach s → Reach s.move_snake
  | change_dir {s : GameState} (d : Direction) : Reach s → Reach (s.change_direction d)
  | reset {s : GameState} : Reach s → Reach s.reset

/-- C6: frozen-on-death.  Whenever `game_over` is set, `move_snake` returns the
state unchanged in every field, bit for bit. -/
theorem tick_frozen_after_game_over (s : GameState) (h : s.game_over = true) :
    s.move_snake = s := by
  simp [GameState.move_snake, h]

/-- Witness for `tick_frozen_after_game_over` at a concrete game-over state. -/
theorem tick_frozen_after_game_over_witness :
    GameState.move_snake { GameState.new with game_over := true } =
      { GameState.new with game_over := true } :=
  tick_frozen_after_game_over { GameState.new with game_over := true } rfl

/-- C7: collision atomicity.  From a live state, if the freshly computed head
collides (wall ring or occupied segment, which is exactly what
`check_collision` tests), the tick sets `game_over` and changes nothing else:
the result is the old state with only the `game_over` field replaced, so
`snake_body`, `snake_length`, `snake_direction`, `food_position`, `score` and
the board are untouched. -/
theorem collision_tick_sets_flag_only (s : GameState) (h1 : s.game_over = false)
    (h2 : s.check_collision s.next_head = true) :
    s.move_snake = { s with game_over := true } := by
  simp [GameState.move_snake, h1, h2]

/-- The spec scenario for C7: head at `(1,1)`, heading Up; the attempted head
`(1,0)` lies on the wall row. -/
def wall_facing_state : GameState :=
  { GameState.new with
    snake_direction := Direction.Up
    snake_body := (List.replicate MAX_SNAKE_LENGTH (⟨0, 0⟩ : Position)).set 0 ⟨1, 1⟩ }

/-- Witness for `collision_tick_sets_flag_only` at the spec's scenario state. -/
theorem collision_tick_sets_flag_only_witness :
    wall_facing_state.move_snake = { wall_facing_state with game_over := true } :=
  collision_tick_sets_flag_only wall_facing_state rfl (by decide)

/-- C5: reversal rejection fails in the program.  `change_direction` itself
does reject the reversal (`Left` against heading `Right` is a no-op, `Up` is
adopted), but the input loop in `main` never calls it: it assigns
`snake_direction` directly, so the byte `'a'` (97) received while heading
`Right` *does* reverse the heading to `Left`. -/
theorem input_loop_bypasses_reversal_check :
    GameState.new.snake_direction = Direction.Right ∧
    (GameState.new.change_direction Direction.Left).snake_direction = Direction.Right ∧
    (GameState.new.change_direction Direction.Up).snake_direction = Direction.Up ∧
    (handle_input_byte GameState.new 97).snake_direction = Direction.Left := by
  decide

/-- C3 (counterexample): after five ticks from the initial state the new food
position is not `(1,1)`; the spec mis-evaluates its own formula, since
`((7 + 2) % 13) + 1 = 10`. -/
theorem five_ticks_food_not_at_one_one :
    (GameState.move_snake^[5] GameState.new).food_position ≠ ⟨1, 1⟩ := by
  decide

/-- C3 (amended): in the five-tick feeding scenario from the initial state the
head first reaches the food `(15,7)` exactly on the fifth tick, the score
becomes 10, the length becomes 4, and the relocated food is at `(1, 10)`. -/
theorem five_tick_feeding_scenario :
    (GameState.move_snake^[0] GameState.new).current_head ≠ ⟨15, 7⟩ ∧
    (GameState.move_snake^[1] GameState.new).current_head ≠ ⟨15, 7⟩ ∧
    (GameState.move_snake^[2] GameState.new).current_head ≠ ⟨15, 7⟩ ∧
    (GameState.move_snake^[3] GameState.new).current_head ≠ ⟨15, 7⟩ ∧
    (GameState.move_snake^[4] GameState.new).current_head ≠ ⟨15, 7⟩ ∧
    (GameState.move_snake^[5] GameState.new).current_head = ⟨15, 7⟩ ∧
    (GameState.move_snake^[5] GameState.new).score = 10 ∧
    (GameState.move_snake^[5] GameState.new).snake_length = 4 ∧
    (GameState.move_snake^[5] GameState.new).food_position = ⟨1, 10⟩ := by
  decide

/-- C1: wall containment fails.  On the very first feed (the fifth tick from
the initial state) the eating branch of `move_snake` increments
`snake_length` without shifting the body, so the never-written array slot
`snake_body[3] = (0,0)` enters the occupied prefix while the game is still
live, and `update_board` even paints a snake cell over the wall corner
`board[0][0]`. -/
theorem grow_bug_places_stale_segment_on_wall :
    (GameState.move_snake^[5] GameState.new).game_over = false ∧
    (GameState.move_snake^[5] GameState.new).snake_length = 4 ∧
    (GameState.move_snake^[5] GameState.new).snake_body.getD 3 ⟨9, 9⟩ = ⟨0, 0⟩ ∧
    (GameState.move_snake^[5] GameState.new).board 0 0 = Cell.Snake := by
  decide

/-- C2: no-self-overlap fails.  `reset` rewrites only the first three body
slots, so a stale segment `(12,7)` written by an earlier game survives the
reset at index 3; the first feed after the reset pulls it into the occupied
prefix, which then contains `(12,7)` twice while the game is still live. -/
theorem reset_then_feed_creates_duplicate_segments :
    (GameState.move_snake^[5]
        (GameState.reset (GameState.move_snake^[6] GameState.new))).game_over = false ∧
    (GameState.move_snake^[5]
        (GameState.reset (GameState.move_snake^[6] GameState.new))).snake_length = 4 ∧
    (GameState.move_snake^[5]
          (GameState.reset (GameState.move_snake^[6] GameState.new))).snake_body.getD 2 ⟨0, 0⟩ =
      ⟨12, 7⟩ ∧
    (GameState.move_snake^[5]
          (GameState.reset (GameState.move_snake^[6] GameState.new))).snake_body.getD 3 ⟨9, 9⟩ =
      ⟨12, 7⟩ := by
  decide

/-- C8 (counterexample): `reset` is not bit-for-bit a fresh construction.
After six ticks the stale slot `snake_body[3]` holds `(12,7)`; `reset`
rewrites only slots 0..2, so the reset state differs from `GameState.new`
(whose slot 3 is `(0,0)`) in that array element. -/
theorem reset_keeps_stale_tail_entry :
    (GameState.reset (GameState.move_snake^[6] GameState.new)).snake_body.getD 3 ⟨0, 0⟩ =
      ⟨12, 7⟩ ∧
    GameState.new.snake_body.getD 3 ⟨9, 9⟩ = ⟨0, 0⟩ ∧
    (GameState.reset (GameState.move_snake^[6] GameState.new)).snake_body.getD 3 ⟨0, 0⟩ ≠
      GameState.new.snake_body.getD 3 ⟨0, 0⟩ := by
  decide

/-- Two functions agree on `List.any` over `List.range n` when they agree below
`n`. -/
lemma any_range_congr {n : Nat} {p q : Nat → Bool} (h : ∀ i < n, p i = q i) :
    (List.range n).any p = (List.range n).any q := by
  induction n with
  | zero => rfl
  | succ n ih =>
    rw [List.range_succ, List.any_append, List.any_append,
      ih fun i hi => h i (Nat.lt_succ_of_lt hi)]
    simp [h n (Nat.lt_succ_self n)]

/-- The rebuilt board depends only on the occupied prefix of the body. -/
lemma build_board_congr {len : Nat} {b1 b2 : List Position} {food : Position}
    (h : ∀ i < len, b1.getD i ⟨0, 0⟩ = b2.getD i ⟨0, 0⟩) :
    build_board len b1 food = build_board len b2 food := by
  funext y x
  unfold build_board
  rw [any_range_congr fun i hi => by rw [h i hi]]

/-- The three slots rewritten by `reset` read back as the fixed starting
segments, whatever the previous contents were. -/
lemma getD_reset_chain (b : List Position) (hb : 3 ≤ b.length) (i : Nat) (hi : i < 3) :
    (((b.set 0 ⟨10, 7⟩).set 1 ⟨9, 7⟩).set 2 ⟨8, 7⟩).getD i ⟨0, 0⟩ =
      [(⟨10, 7⟩ : Position), ⟨9, 7⟩, ⟨8, 7⟩].getD i ⟨0, 0⟩ := by
  have hlen : i < (((b.set 0 ⟨10, 7⟩).set 1 ⟨9, 7⟩).set 2 ⟨8, 7⟩).length := by
    simpa using lt_of_lt_of_le hi hb
  rw [List.getD_eq_getElem _ _ hlen]
  interval_cases i <;> simp [List.getElem_set]

/-- C8 (amended): `reset` from any well-formed state (body array of length
`MAX_SNAKE_LENGTH`) restores every field of the freshly constructed
`GameState.new` — length, heading, food, score, `game_over`, the three
occupied body slots and the whole rebuilt board — except that the unoccupied
body slots (indices 3 and above) may retain stale values from before the
reset. -/
theorem reset_restores_initial_state_fields (s : GameState)
    (h : s.snake_body.length = MAX_SNAKE_LENGTH) :
    s.reset.snake_length = GameState.new.snake_length ∧
    s.reset.snake_direction = GameState.new.snake_direction ∧
    s.reset.food_position = GameState.new.food_position ∧
    s.reset.score = GameState.new.score ∧
    s.reset.game_over = GameState.new.game_over ∧
    s.reset.snake_body.length = GameState.new.snake_body.length ∧
    (∀ i < 3, s.reset.snake_body.getD i ⟨0, 0⟩ = GameState.new.snake_body.getD i ⟨0, 0⟩) ∧
    s.reset.board = GameState.new.board := by
  have hb : 3 ≤ s.snake_body.length := by rw [h]; norm_num [MAX_SNAKE_LENGTH]
  have hb' : 3 ≤ (List.replicate MAX_SNAKE_LENGTH (⟨0, 0⟩ : Position)).length := by
    simp [MAX_SNAKE_LENGTH]
  have hpre : ∀ i < 3,
      s.reset.snake_body.getD i ⟨0, 0⟩ = GameState.new.snake_body.getD i ⟨0, 0⟩ := by
    intro i hi
    show (((s.snake_body.set 0 ⟨10, 7⟩).set 1 ⟨9, 7⟩).set 2 ⟨8, 7⟩).getD i ⟨0, 0⟩ = _
    rw [getD_reset_chain s.snake_body hb i hi,
      show GameState.new.snake_body =
        (((List.replicate MAX_SNAKE_LENGTH (⟨0, 0⟩ : Position)).set 0 ⟨10, 7⟩).set 1
            ⟨9, 7⟩).set 2 ⟨8, 7⟩ from rfl,
      getD_reset_chain _ hb' i hi]
  refine ⟨rfl, rfl, rfl, rfl, rfl, ?_, hpre, ?_⟩
  · show (((s.snake_body.set 0 ⟨10, 7⟩).set 1 ⟨9, 7⟩).set 2 ⟨8, 7⟩).length = _
    simp [GameState.new, GameState.update_board, h, MAX_SNAKE_LENGTH]
  · show build_board 3 (((s.snake_body.set 0 ⟨10, 7⟩).set 1 ⟨9, 7⟩).set 2 ⟨8, 7⟩) ⟨15, 7⟩ = _
    have hcongr :
        build_board 3 (((s.snake_body.set 0 ⟨10, 7⟩).set 1 ⟨9, 7⟩).set 2 ⟨8, 7⟩) ⟨15, 7⟩ =
          build_board 3
            ((((List.replicate MAX_SNAKE_LENGTH (⟨0, 0⟩ : Position)).set 0 ⟨10, 7⟩).set 1
                ⟨9, 7⟩).set 2 ⟨8, 7⟩) ⟨15, 7⟩ :=
      build_board_congr fun i hi => by
        rw [getD_reset_chain s.snake_body hb i hi, getD_reset_chain _ hb' i hi]
    exact hcongr

/-- Witness for `reset_restores_initial_state_fields` at the concrete state
reached by six ticks (whose stale slot 3 holds `(12,7)`). -/
theorem reset_restores_initial_state_fields_witness :
    (GameState.move_snake^[6] GameState.new).reset.snake_length =
        GameState.new.snake_length ∧
    (GameState.move_snake^[6] GameState.new).reset.snake_direction =
        GameState.new.snake_direction ∧
    (GameState.move_snake^[6] GameState.new).reset.food_position =
        GameState.new.food_position ∧
    (GameState.move_snake^[6] GameState.new).reset.score = GameState.new.score ∧
    (GameState.move_snake^[6] GameState.new).reset.game_over = GameState.new.game_over ∧
    (GameState.move_snake^[6] GameState.new).reset.snake_body.length =
        GameState.new.snake_body.length ∧
    (∀ i < 3,
      (GameState.move_snake^[6] GameState.new).reset.snake_body.getD i ⟨0, 0⟩ =
        GameState.new.snake_body.getD i ⟨0, 0⟩) ∧
    (GameState.move_snake^[6] GameState.new).reset.board = GameState.new.board :=
  reset_restores_initial_state_fields (GameState.move_snake^[6] GameState.new) (by decide)

/-- C4: food placement.  For every state, `place_new_food` computes the
candidate `((x+3) mod (W-2) + 1, (y+2) mod (H-2) + 1)` from the previous food
position; if the candidate coincides with any occupied segment it applies
exactly one corrective nudge to the `x` coordinate and accepts the result
unconditionally; and in all cases the new food position is interior
(`1 ≤ x ≤ W-2`, `1 ≤ y ≤ H-2`). -/
theorem place_new_food_spec (s : GameState) :
    (s.place_new_food.food_position =
      if ∃ i < s.snake_length,
          (⟨(s.food_position.x + 3) % (BOARD_WIDTH - 2) + 1,
            (s.food_position.y + 2) % (BOARD_HEIGHT - 2) + 1⟩ : Position) =
            s.snake_body.getD i ⟨0, 0⟩ then
        ⟨((s.food_position.x + 3) % (BOARD_WIDTH - 2) + 1 + 1) % (BOARD_WIDTH - 2) + 1,
          (s.food_position.y + 2) % (BOARD_HEIGHT - 2) + 1⟩
      else
        ⟨(s.food_position.x + 3) % (BOARD_WIDTH - 2) + 1,
          (s.food_position.y + 2) % (BOARD_HEIGHT - 2) + 1⟩) ∧
    1 ≤ s.place_new_food.food_position.x ∧
    s.place_new_food.food_position.x ≤ BOARD_WIDTH - 2 ∧
    1 ≤ s.place_new_food.food_position.y ∧
    s.place_new_food.food_position.y ≤ BOARD_HEIGHT - 2 := by
  have key :
      (((List.range s.snake_length).any fun i =>
          decide
            ((⟨(s.food_position.x + 3) % (BOARD_WIDTH - 2) + 1,
              (s.food_position.y + 2) % (BOARD_HEIGHT - 2) + 1⟩ : Position) =
              s.snake_body.getD i ⟨0, 0⟩)) = true) ↔
        ∃ i < s.snake_length,
          (⟨(s.food_position.x + 3) % (BOARD_WIDTH - 2) + 1,
            (s.food_position.y + 2) % (BOARD_HEIGHT - 2) + 1⟩ : Position) =
            s.snake_body.getD i ⟨0, 0⟩ := by
    simp [List.any_eq_true, List.mem_range]
  unfold GameState.place_new_food
  by_cases hc :
      ∃ i < s.snake_length,
        (⟨(s.food_position.x + 3) % (BOARD_WIDTH - 2) + 1,
          (s.food_position.y + 2) % (BOARD_HEIGHT - 2) + 1⟩ : Position) =
          s.snake_body.getD i ⟨0, 0⟩
  · rw [if_pos (key.mpr hc), if_pos hc]
    refine ⟨rfl, ?_, ?_, ?_, ?_⟩ <;> dsimp only <;>
      simp only [BOARD_WIDTH, BOARD_HEIGHT] <;> omega
  · rw [if_neg fun hcontra => hc (key.mp hcontra), if_neg hc]
    refine ⟨rfl, ?_, ?_, ?_, ?_⟩ <;> dsimp only <;>
      simp only [BOARD_WIDTH, BOARD_HEIGHT] <;> omega

/-- The digit loop writes exactly the base-10 digits (least significant first,
offset by `b'0' = 48`) whenever they fit in the remaining buffer slots. -/
lemma fill_digits_spec (fuel num : Nat) (acc : List Nat)
    (h : (Nat.digits 10 num).length ≤ fuel) :
    fill_digits fuel num acc = some (acc ++ (Nat.digits 10 num).map (fun d => d + 48)) := by
  induction fuel generalizing num acc with
  | zero =>
    cases num with
    | zero => simp [fill_digits]
    | succ n =>
      exfalso
      have hne : Nat.digits 10 (n + 1) ≠ [] :=
        Nat.digits_ne_nil_iff_ne_zero.mpr (Nat.succ_ne_zero n)
      have hpos := List.length_pos.mpr hne
      omega
  | succ fuel ih =>
    cases num with
    | zero => simp [fill_digits]
    | succ n =>
      have hd : Nat.digits 10 (n + 1) = (n + 1) % 10 :: Nat.digits 10 ((n + 1) / 10) :=
        Nat.digits_def' (by norm_num) (Nat.succ_pos n)
      have h2 : (Nat.digits 10 ((n + 1) / 10)).length ≤ fuel := by
        rw [hd] at h
        simp only [List.length_cons] at h
        omega
      show fill_digits fuel ((n + 1) / 10) (acc ++ [(n + 1) % 10 + 48]) = _
      rw [ih ((n + 1) / 10) (acc ++ [(n + 1) % 10 + 48]) h2, hd]
      simp

/-- C9: numeric rendering.  For every `u32` value, `send_number` succeeds (the
10-slot buffer is large enough) and emits exactly the standard decimal byte
sequence: the single byte `'0'` (48) for zero, and otherwise the base-10
digits most-significant-first with no leading zeros (`Nat.digits` returns the
digits least-significant-first with a nonzero leading digit, matching the
least-significant-first buffer fill that is then emitted in reverse). -/
theorem send_number_decimal (num : Nat) (h : num < 2 ^ 32) :
    send_number num =
      some (if num = 0 then [48] else ((Nat.digits 10 num).map (fun d => d + 48)).reverse) := by
  by_cases h0 : num = 0
  · simp [send_number, h0]
  · have hlen : (Nat.digits 10 num).length ≤ 10 := by
      rw [Nat.digits_len 10 num (by norm_num) h0]
      have hlog : Nat.log 10 num < 10 :=
        Nat.log_lt_of_lt_pow h0 (lt_of_lt_of_le h (by norm_num))
      omega
    simp [send_number, h0, fill_digits_spec 10 num [] hlen]

/-- Witness for `send_number_decimal` at the largest `u32` value: all ten
buffer slots are used and the digits come out most-significant-first. -/
theorem send_number_decimal_witness :
    send_number 4294967295 = some [52, 50, 57, 52, 57, 54, 55, 50, 57, 53] := by
  rw [send_number_decimal 4294967295 (by norm_num)]
  norm_num [Nat.digits_def']

/-- A position that can be written into the board without going out of bounds:
`board[pos.y][pos.x]` needs `pos.y < BOARD_HEIGHT` and `pos.x < BOARD_WIDTH`. -/
def pos_in_bounds (p : Position) : Prop :=
  p.x < BOARD_WIDTH ∧ p.y < BOARD_HEIGHT

instance (p : Position) : Decidable (pos_in_bounds p) := by
  unfold pos_in_bounds
  infer_instance

/-- The inductive invariant: the body array keeps its capacity-100 length and
every entry of it, occupied or not, and the food position stay inside the
board rectangle. -/
def StateInv (s : GameState) : Prop :=
  s.snake_body.length = MAX_SNAKE_LENGTH ∧
  (∀ p ∈ s.snake_body, pos_in_bounds p) ∧
  pos_in_bounds s.food_position

instance (s : GameState) : Decidable (StateInv s) := by
  unfold StateInv
  infer_instance

lemma state_inv_new : StateInv GameState.new := by decide

lemma set_forall_mem {b : List Position} {i : Nat} {v : Position}
    (hb : ∀ p ∈ b, pos_in_bounds p) (hv : pos_in_bounds v) :
    ∀ p ∈ b.set i v, pos_in_bounds p := by
  intro p hp
  rcases List.mem_or_eq_of_mem_set hp with hmem | rfl
  · exact hb p hmem
  · exact hv

lemma shift_body_length (b : List Position) (n : Nat) :
    (shift_body b n).length = b.length := by
  induction n generalizing b with
  | zero => rfl
  | succ n ih =>
    rw [show shift_body b (n + 1) = shift_body (b.set (n + 1) (b.getD n ⟨0, 0⟩)) n from rfl,
      ih]
    simp

lemma shift_body_mem (b : List Position) (n : Nat) (p : Position)
    (hp : p ∈ shift_body b n) : p ∈ b ∨ p = ⟨0, 0⟩ := by
  induction n generalizing b with
  | zero => exact Or.inl hp
  | succ n ih =>
    rcases ih (b.set (n + 1) (b.getD n ⟨0, 0⟩)) hp with h1 | h2
    · rcases List.mem_or_eq_of_mem_set h1 with h3 | h4
      · exact Or.inl h3
      · by_cases hn : n < b.length
        · rw [List.getD_eq_getElem _ _ hn] at h4
          exact Or.inl (h4 ▸ List.getElem_mem hn)
        · rw [List.getD_eq_default _ _ (Nat.le_of_not_lt hn)] at h4
          exact Or.inr h4
    · exact Or.inr h2

/-- If the computed head passes `check_collision`, it is strictly inside the
wall ring. -/
lemma next_head_interior (s : GameState)
    (h : s.check_collision s.next_head = false) :
    1 ≤ s.next_head.x ∧ s.next_head.x ≤ BOARD_WIDTH - 2 ∧
    1 ≤ s.next_head.y ∧ s.next_head.y ≤ BOARD_HEIGHT - 2 := by
  unfold GameState.check_collision at h
  rw [Bool.or_eq_false_iff] at h
  have h1 := h.1
  rw [decide_eq_false_iff_not] at h1
  push_neg at h1
  simp only [BOARD_WIDTH, BOARD_HEIGHT] at h1 ⊢
  omega

/-- The relocated food is always interior. -/
lemma place_new_food_interior (s : GameState) :
    1 ≤ s.place_new_food.food_position.x ∧
    s.place_new_food.food_position.x ≤ BOARD_WIDTH - 2 ∧
    1 ≤ s.place_new_food.food_position.y ∧
    s.place_new_food.food_position.y ≤ BOARD_HEIGHT - 2 := by
  dsimp only [GameState.place_new_food]
  split <;> refine ⟨?_, ?_, ?_, ?_⟩ <;> dsimp only <;>
    simp only [BOARD_WIDTH, BOARD_HEIGHT] <;> omega

lemma place_new_food_body (s : GameState) :
    s.place_new_food.snake_body = s.snake_body := by
  dsimp only [GameState.place_new_food]
  split <;> rfl

lemma place_new_food_length (s : GameState) :
    s.place_new_food.snake_length = s.snake_length := by
  dsimp only [GameState.place_new_food]
  split <;> rfl

lemma move_snake_inv (s : GameState) (h : StateInv s) : StateInv s.move_snake := by
  obtain ⟨hlen, hmem, hfood⟩ := h
  by_cases hgo : s.game_over = true
  · dsimp only [GameState.move_snake]
    rw [if_pos hgo]
    exact ⟨hlen, hmem, hfood⟩
  · by_cases hcol : s.check_collision s.next_head = true
    · dsimp only [GameState.move_snake]
      rw [if_neg hgo, if_pos hcol]
      exact ⟨hlen, hmem, hfood⟩
    · have hcol' : s.check_collision s.next_head = false := by simpa using hcol
      have hhead : pos_in_bounds s.next_head := by
        have hint := next_head_interior s hcol'
        constructor <;> simp only [BOARD_WIDTH, BOARD_HEIGHT] at hint ⊢ <;> omega
      by_cases heat : s.next_head = s.food_position
      · dsimp only [GameState.move_snake]
        rw [if_neg hgo, if_neg hcol, if_pos heat]
        refine ⟨?_, ?_, ?_⟩
        · show ((GameState.place_new_food _).snake_body.set 0 _).length = _
          rw [List.length_set, place_new_food_body]
          exact hlen
        · show ∀ p ∈ (GameState.place_new_food _).snake_body.set 0 _, pos_in_bounds p
          rw [place_new_food_body]
          exact set_forall_mem hmem hhead
        · show pos_in_bounds (GameState.place_new_food _).food_position
          have hin := place_new_food_interior
            { s with score := s.score + 10, snake_length := s.snake_length + 1 }
          constructor <;> simp only [BOARD_WIDTH, BOARD_HEIGHT] at hin ⊢ <;> omega
      · dsimp only [GameState.move_snake]
        rw [if_neg hgo, if_neg hcol, if_neg heat]
        refine ⟨?_, ?_, ?_⟩
        · show ((shift_body s.snake_body _).set 0 _).length = _
          rw [List.length_set, shift_body_length]
          exact hlen
        · show ∀ p ∈ (shift_body s.snake_body _).set 0 _, pos_in_bounds p
          refine set_forall_mem ?_ hhead
          intro p hp
          rcases shift_body_mem _ _ p hp with hm | rfl
          · exact hmem p hm
          · exact ⟨by norm_num [BOARD_WIDTH], by norm_num [BOARD_HEIGHT]⟩
        · exact hfood

lemma change_direction_inv (s : GameState) (d : Direction) (h : StateInv s) :
    StateInv (s.change_direction d) := by
  obtain ⟨hlen, hmem, hfood⟩ := h
  dsimp only [GameState.change_direction]
  split <;> exact ⟨hlen, hmem, hfood⟩

lemma reset_inv (s : GameState) (h : StateInv s) : StateInv s.reset := by
  obtain ⟨hlen, hmem, hfood⟩ := h
  refine ⟨?_, ?_, ?_⟩
  · show (((s.snake_body.set 0 ⟨10, 7⟩).set 1 ⟨9, 7⟩).set 2 ⟨8, 7⟩).length = _
    simpa using hlen
  · show ∀ p ∈ ((s.snake_body.set 0 ⟨10, 7⟩).set 1 ⟨9, 7⟩).set 2 ⟨8, 7⟩, pos_in_bounds p
    exact set_forall_mem (set_forall_mem (set_forall_mem hmem (by decide)) (by decide))
      (by decide)
  · exact (by decide : pos_in_bounds ⟨15, 7⟩)

/-- Every reachable state satisfies the bounds invariant. -/
lemma reach_inv (s : GameState) (h : Reach s) : StateInv s := by
  induction h with
  | init => exact state_inv_new
  | tick _ ih => exact move_snake_inv _ ih
  | change_dir d _ ih => exact change_direction_inv _ d ih
  | reset _ ih => exact reset_inv _ ih

/-- The array accesses performed by `GameState::update_board` are in bounds:
its snake loop reads `snake_body[i]` for every `i < snake_length` (needing
`snake_length ≤ MAX_SNAKE_LENGTH`) and writes `board[pos.y][pos.x]` for each
of those positions and for the food (needing each position inside the board
rectangle). -/
def update_board_accesses_in_bounds (s : GameState) : Prop :=
  s.snake_length ≤ MAX_SNAKE_LENGTH ∧
  (∀ i < s.snake_length, pos_in_bounds (s.snake_body.getD i ⟨0, 0⟩)) ∧
  pos_in_bounds s.food_position

instance (s : GameState) : Decidable (update_board_accesses_in_bounds s) := by
  unfold update_board_accesses_in_bounds
  infer_instance

/-- The array accesses performed by one `GameState::move_snake` call are in
bounds.  A frozen tick touches nothing.  Otherwise `check_collision` reads
`snake_body[i]` for `i < snake_length`.  On a feed, `snake_length` is first
incremented, so `place_new_food` and the final `update_board` access indices
up to the incremented length, which therefore must still be at most
`MAX_SNAKE_LENGTH` (`place_new_food` runs its conflict scan
`for i in 0..self.snake_length` after the increment, so at full capacity it
reads `snake_body[MAX_SNAKE_LENGTH]`); without a feed the shift writes indices
`1..snake_length-1` and `update_board` reads up to the unchanged length. -/
def move_snake_accesses_in_bounds (s : GameState) : Prop :=
  if s.game_over = true then True
  else if s.check_collision s.next_head = true then s.snake_length ≤ MAX_SNAKE_LENGTH
  else if s.next_head = s.food_position then
    s.snake_length + 1 ≤ MAX_SNAKE_LENGTH ∧ update_board_accesses_in_bounds s.move_snake
  else
    s.snake_length ≤ MAX_SNAKE_LENGTH ∧ update_board_accesses_in_bounds s.move_snake

instance (s : GameState) : Decidable (move_snake_accesses_in_bounds s) := by
  unfold move_snake_accesses_in_bounds
  infer_instance

/-- The accesses performed by `GameState::reset` are in bounds: it writes the
three starting slots (3 ≤ capacity) and rebuilds the board of the reset
state. -/
def reset_accesses_in_bounds (s : GameState) : Prop :=
  3 ≤ MAX_SNAKE_LENGTH ∧ update_board_accesses_in_bounds s.reset

instance (s : GameState) : Decidable (reset_accesses_in_bounds s) := by
  unfold reset_accesses_in_bounds
  infer_instance

lemma inv_getD_bounds {s : GameState} (hinv : StateInv s) (i : Nat) :
    pos_in_bounds (s.snake_body.getD i ⟨0, 0⟩) := by
  by_cases hi : i < s.snake_body.length
  · rw [List.getD_eq_getElem _ _ hi]
    exact hinv.2.1 _ (List.getElem_mem hi)
  · rw [List.getD_eq_default _ _ (Nat.le_of_not_lt hi)]
    exact ⟨by norm_num [BOARD_WIDTH], by norm_num [BOARD_HEIGHT]⟩

lemma move_snake_length_feed (s : GameState) (hgo : ¬s.game_over = true)
    (hcol : ¬s.check_collision s.next_head = true) (heat : s.next_head = s.food_position) :
    s.move_snake.snake_length = s.snake_length + 1 := by
  dsimp only [GameState.move_snake]
  rw [if_neg hgo, if_neg hcol, if_pos heat]
  show (GameState.place_new_food _).snake_length = _
  rw [place_new_food_length]

lemma move_snake_length_shift (s : GameState) (hgo : ¬s.game_over = true)
    (hcol : ¬s.check_collision s.next_head = true) (heat : ¬s.next_head = s.food_position) :
    s.move_snake.snake_length = s.snake_length := by
  dsimp only [GameState.move_snake]
  rw [if_neg hgo, if_neg hcol, if_neg heat]
  rfl

/-- The provable part of the C10 property: for every reachable state all
`MAX_SNAKE_LENGTH` body entries and the food position lie strictly inside the
board dimensions, so every board write performed by `update_board` is in
bounds; `reset` is always panic-free; and a tick (`move_snake`) and the board
rebuild are panic-free *provided* the snake is below capacity (the length
after a potential feed still fits the array) — a bound that sustained play can
in fact violate once the snake fills the buffer (see the capacity-overflow
theorem below). -/
theorem reachable_accesses_in_bounds (s : GameState) (h : Reach s) :
    (∀ i < MAX_SNAKE_LENGTH, pos_in_bounds (s.snake_body.getD i ⟨0, 0⟩)) ∧
    pos_in_bounds s.food_position ∧
    (s.snake_length ≤ MAX_SNAKE_LENGTH → update_board_accesses_in_bounds s) ∧
    reset_accesses_in_bounds s ∧
    ((if s.next_head = s.food_position then s.snake_length + 1 else s.snake_length) ≤
        MAX_SNAKE_LENGTH →
      move_snake_accesses_in_bounds s) := by
  have hinv := reach_inv s h
  refine ⟨fun i _ => inv_getD_bounds hinv i, hinv.2.2,
    fun hlen => ⟨hlen, fun i _ => inv_getD_bounds hinv i, hinv.2.2⟩, ?_, ?_⟩
  · refine ⟨by norm_num [MAX_SNAKE_LENGTH], ?_, fun i _ => inv_getD_bounds (reset_inv s hinv) i,
      (reset_inv s hinv).2.2⟩
    show (3 : Nat) ≤ MAX_SNAKE_LENGTH
    norm_num [MAX_SNAKE_LENGTH]
  · intro hcap
    unfold move_snake_accesses_in_bounds
    by_cases hgo : s.game_over = true
    · rw [if_pos hgo]
      trivial
    · rw [if_neg hgo]
      by_cases hcol : s.check_collision s.next_head = true
      · rw [if_pos hcol]
        split at hcap <;> omega
      · rw [if_neg hcol]
        have hmove := move_snake_inv s hinv
        by_cases heat : s.next_head = s.food_position
        · rw [if_pos heat]
          rw [if_pos heat] at hcap
          refine ⟨hcap, ?_, fun i _ => inv_getD_bounds hmove i, hmove.2.2⟩
          rw [move_snake_length_feed s hgo hcol heat]
          exact hcap
        · rw [if_neg heat]
          rw [if_neg heat] at hcap
          refine ⟨hcap, ?_, fun i _ => inv_getD_bounds hmove i, hmove.2.2⟩
          rw [move_snake_length_shift s hgo hcol heat]
          exact hcap

/-- Witness for `reachable_accesses_in_bounds` at the initial state. -/
theorem reachable_accesses_in_bounds_witness :
    (∀ i < MAX_SNAKE_LENGTH, pos_in_bounds (GameState.new.snake_body.getD i ⟨0, 0⟩)) ∧
    pos_in_bounds GameState.new.food_position ∧
    (GameState.new.snake_length ≤ MAX_SNAKE_LENGTH →
      update_board_accesses_in_bounds GameState.new) ∧
    reset_accesses_in_bounds GameState.new ∧
    ((if GameState.new.next_head = GameState.new.food_position then
          GameState.new.snake_length + 1
        else GameState.new.snake_length) ≤ MAX_SNAKE_LENGTH →
      move_snake_accesses_in_bounds GameState.new) :=
  reachable_accesses_in_bounds GameState.new Reach.init

/-- A full-capacity state one tick away from its food: 100 occupied segments,
heading Left with the head at `(2,7)` and the food at `(1,7)`. -/
def capacity_overflow_state : GameState :=
  { board := fun _ _ => Cell.Empty
    snake_body := List.replicate MAX_SNAKE_LENGTH (⟨2, 7⟩ : Position)
    snake_length := MAX_SNAKE_LENGTH
    snake_direction := Direction.Left
    food_position := ⟨1, 7⟩
    score := 970
    game_over := false }

/-- C10: the claimed panic-freedom of a tick fails at full capacity.  When a
running snake of length `MAX_SNAKE_LENGTH` feeds (its next head is the food
and collides with nothing), `move_snake` first increments `snake_length` to
`MAX_SNAKE_LENGTH + 1` and then runs `place_new_food`, whose conflict scan
`for i in 0..self.snake_length` reads `snake_body[MAX_SNAKE_LENGTH]` — one
past the end of the `[Position; MAX_SNAKE_LENGTH]` array — so the tick's
array accesses are no longer in bounds and the Rust program panics. -/
theorem snake_capacity_overflow_on_feed (s : GameState)
    (hgo : s.game_over = false)
    (hcol : s.check_collision s.next_head = false)
    (heat : s.next_head = s.food_position)
    (hlen : s.snake_length = MAX_SNAKE_LENGTH) :
    ¬ move_snake_accesses_in_bounds s := by
  intro hacc
  unfold move_snake_accesses_in_bounds at hacc
  rw [if_neg (by simp [hgo]), if_neg (by simp [hcol]), if_pos heat] at hacc
  rw [hlen] at hacc
  exact absurd hacc.1 (by omega)

/-- Witness for `snake_capacity_overflow_on_feed` at the concrete
full-capacity state. -/
theorem snake_capacity_overflow_on_feed_witness :
    capacity_overflow_state.game_over = false ∧
    capacity_overflow_state.check_collision capacity_overflow_state.next_head = false ∧
    capacity_overflow_state.next_head = capacity_overflow_state.food_position ∧
    capacity_overflow_state.snake_length = MAX_SNAKE_LENGTH ∧
    ¬ move_snake_accesses_in_bounds capacity_overflow_state :=
  ⟨rfl, by decide, by decide, rfl,
    snake_capacity_overflow_on_feed capacity_overflow_state rfl (by decide) (by decide) rfl⟩

end Snake
